import Mathlib

/-!
Verification of `compress_tiff_file` (src/utils3.py) as a shallow embedding.

The source is a single Python function that iteratively downsamples a TIFF
image and re-saves it until the saved file fits under `target_size_kb`.
Python floats are modelled as exact rationals (`ℚ`); Python's `int()`
truncation and `round()` are modelled explicitly.  The filesystem and the
TIFF encoder are modelled by an abstract size function
`f : ℤ → ℤ → ℚ` giving the size in KB of the file saved at given
width/height (the pixel content is fixed for a fixed input image, so the
saved size is a function of the dimensions alone).  The `while True:` loop
is embedded as a fuel-indexed runner: `fuel` counts observed iterations,
and `none` means the loop has not returned within that many iterations.
-/

/-- Python `int()` applied to a rational: truncation toward zero. -/
def pyInt (x : ℚ) : ℤ := if 0 ≤ x then ⌊x⌋ else ⌈x⌉

/-- Python 3 `round()` to an integer: round half to even. -/
def pyRound (x : ℚ) : ℤ :=
  if x - ⌊x⌋ < 1/2 then ⌊x⌋
  else if 1/2 < x - ⌊x⌋ then ⌊x⌋ + 1
  else if Even ⌊x⌋ then ⌊x⌋ else ⌊x⌋ + 1

/-- `os.path.basename`: the part of the path after the last separator. -/
def basename (s : String) : String :=
  String.mk ((s.data.reverse.takeWhile (fun c => c != '/')).reverse)

/-- Line 17: `output_file = f"compressed_{os.path.basename(input_file)}"`. -/
def output_file (input_file : String) : String :=
  "compressed_" ++ basename input_file

/-- The scale factor at the start of iteration `k` of the loop.
Line 19: it starts at `0.9`; line 61: it is multiplied by `0.95` at the
end of each iteration that fails the size check (iteration `k+1` only runs
after iteration `k` failed). -/
def scale_factor : ℕ → ℚ
  | 0 => 0.9
  | k + 1 => scale_factor k * 0.95

/-- Line 28: `min_width = int(original_width * min_size_percentage)`. -/
def min_width (original_width : ℕ) (min_size_percentage : ℚ) : ℤ :=
  pyInt (original_width * min_size_percentage)

/-- Line 29: `min_height = int(original_height * min_size_percentage)`. -/
def min_height (original_height : ℕ) (min_size_percentage : ℚ) : ℤ :=
  pyInt (original_height * min_size_percentage)

/-- The width of the image decoded at iteration `k`.  Line 26 re-opens the
input file every iteration, so the decoded image is the original image
regardless of `k`: its width is `original_width`. -/
def currentWidth (original_width : ℕ) (_k : ℕ) : ℕ := original_width

/-- The height of the image decoded at iteration `k` (re-opened fresh). -/
def currentHeight (original_height : ℕ) (_k : ℕ) : ℕ := original_height

/-- Line 30: `new_width = max(int(img.width * scale_factor), min_width)`
at iteration `k`; `img.width` is the freshly decoded (original) width. -/
def new_width (original_width : ℕ) (min_size_percentage : ℚ) (k : ℕ) : ℤ :=
  max (pyInt ((currentWidth original_width k : ℚ) * scale_factor k))
    (min_width original_width min_size_percentage)

/-- Line 31: `new_height = max(int(img.height * scale_factor), min_height)`
at iteration `k`. -/
def new_height (original_height : ℕ) (min_size_percentage : ℚ) (k : ℕ) : ℤ :=
  max (pyInt ((currentHeight original_height k : ℚ) * scale_factor k))
    (min_height original_height min_size_percentage)

/-- On nonnegative arguments, Python truncation agrees with the floor. -/
lemma pyInt_of_nonneg {x : ℚ} (h : 0 ≤ x) : pyInt x = ⌊x⌋ := if_pos h

lemma pyInt_eq_of {x : ℚ} {z : ℤ} (h0 : 0 ≤ x) (h1 : (z : ℚ) ≤ x)
    (h2 : x < z + 1) : pyInt x = z := by
  rw [pyInt_of_nonneg h0]
  exact Int.floor_eq_iff.mpr ⟨h1, h2⟩

/-- A value stored in a PIL image's `info` metadata dictionary: either a
pair of integers (as used for `dpi`) or some opaque blob (EXIF, ICC, …). -/
inductive MetaVal where
  | pair : ℤ → ℤ → MetaVal
  | blob : String → MetaVal
deriving DecidableEq

/-- A PIL image as far as this function observes it: its dimensions and
its `info` metadata dictionary (an association list keyed by strings). -/
structure Img where
  width : ℤ
  height : ℤ
  info : List (String × MetaVal)
deriving DecidableEq

/-- `Image.open(input_file)` at iteration `k`: the file is re-read, so the
result is the original image (dimensions and metadata) regardless of `k`. -/
def imageOpen (original_width original_height : ℕ)
    (info0 : List (String × MetaVal)) (_k : ℕ) : Img :=
  ⟨original_width, original_height, info0⟩

/-- Line 33: `img.resize((new_width, new_height), LANCZOS)` — dimensions
change, the `info` dictionary is carried over. -/
def resize (img : Img) (wh : ℤ × ℤ) : Img := ⟨wh.1, wh.2, img.info⟩

/-- Line 37: `ImageEnhance.Sharpness(...).enhance(2.0)` — pixel-level only;
dimensions and metadata are unchanged. -/
def sharpnessEnhance (img : Img) (_factor : ℚ) : Img := img

/-- Line 41: `ImageEnhance.Contrast(...).enhance(1.5)` — pixel-level only. -/
def contrastEnhance (img : Img) (_factor : ℚ) : Img := img

/-- Line 44: `img_resized.filter(GaussianBlur(radius=0.1))` — pixel-level
only. -/
def gaussianBlur (img : Img) (_radius : ℚ) : Img := img

/-- Line 47: `img_resized.info['dpi'] = (300, 300)` — dictionary update. -/
def setDpi (img : Img) : Img :=
  { img with
    info := ("dpi", MetaVal.pair 300 300) ::
      img.info.filter (fun e => e.1 != "dpi") }

/-- Line 50: `img_resized.info = {}` — the whole dictionary is replaced by
an empty one. -/
def clearInfo (img : Img) : Img := { img with info := [] }

/-- The image after lines 30–47 of iteration `k`: resized, filtered, and
with the dpi hint just set (the state right before the metadata clear). -/
def imgAfterDpi (original_width original_height : ℕ)
    (min_size_percentage : ℚ) (info0 : List (String × MetaVal)) (k : ℕ) : Img :=
  setDpi
    (gaussianBlur
      (contrastEnhance
        (sharpnessEnhance
          (resize (imageOpen original_width original_height info0 k)
            (new_width original_width min_size_percentage k,
             new_height original_height min_size_percentage k))
          2.0)
        1.5)
      0.1)

/-- The image handed to `save` at iteration `k` (after line 50's clear). -/
def imgSaved (original_width original_height : ℕ)
    (min_size_percentage : ℚ) (info0 : List (String × MetaVal)) (k : ℕ) : Img :=
  clearInfo (imgAfterDpi original_width original_height min_size_percentage info0 k)

/-- One write to disk, as observable from outside: where the file goes and
what is written (line 53: `img_resized.save(output_file, format="TIFF",
compression=compression)` with `compression = "tiff_lzw"`, line 18). -/
structure SaveOp where
  path : String
  format : String
  compression : String
  image : Img
deriving DecidableEq

/-- The save performed by iteration `k` of the loop. -/
def iterSave (input_file : String) (original_width original_height : ℕ)
    (min_size_percentage : ℚ) (info0 : List (String × MetaVal)) (k : ℕ) : SaveOp :=
  ⟨output_file input_file, "TIFF", "tiff_lzw",
    imgSaved original_width original_height min_size_percentage info0 k⟩

/-- Line 57: `output_size_kb = os.path.getsize(output_file) / 1024` at
iteration `k`, under the size model `f` (size in KB of the file the
encoder produces at given dimensions). -/
def output_size_kb (f : ℤ → ℤ → ℚ) (original_width original_height : ℕ)
    (min_size_percentage : ℚ) (k : ℕ) : ℚ :=
  f (new_width original_width min_size_percentage k)
    (new_height original_height min_size_percentage k)

/-- The two ways the function can raise: a decode error from
`Image.open` (line 22 or 26) or a filesystem error from `save` (line 53). -/
inductive CompressError where
  | decodeError : CompressError
  | writeError : CompressError
deriving DecidableEq

/-- The `while True:` loop (lines 25–61) observed for `fuel` iterations,
starting at iteration `k`.  Each observed iteration first attempts the
save (raising `writeError` if the output path is not writable), then
checks the size; `some (.ok n)` means the loop exited the size check at
iteration `n`, `none` means it has not returned within `fuel` iterations. -/
def loopFrom (original_width original_height : ℕ)
    (min_size_percentage target_size_kb : ℚ) (f : ℤ → ℤ → ℚ)
    (writable : Bool) : ℕ → ℕ → Option (Except CompressError ℕ)
  | _, 0 => none
  | k, fuel + 1 =>
    if writable then
      if output_size_kb f original_width original_height
          min_size_percentage k ≤ target_size_kb then
        some (.ok k)
      else
        loopFrom original_width original_height min_size_percentage
          target_size_kb f writable (k + 1) fuel
    else some (.error .writeError)

/-- `compress_tiff_file(input_file, target_size_kb, min_size_percentage)`,
observed for `fuel` loop iterations.  `decoded` is what `Image.open`
yields for `input_file` (`none` = not a valid image), `writable` models
the output path's writability and `f` the encoder's size-at-dimensions.
`some (.ok path)` is a normal return, `some (.error e)` a raised
exception, `none` means the loop is still running after `fuel`
iterations. -/
def compress_tiff_file (input_file : String) (decoded : Option (ℕ × ℕ))
    (writable : Bool) (f : ℤ → ℤ → ℚ) (target_size_kb min_size_percentage : ℚ)
    (fuel : ℕ) : Option (Except CompressError String) :=
  match decoded with
  | none => some (.error .decodeError)
  | some (w, h) =>
    match loopFrom w h min_size_percentage target_size_kb f writable 0 fuel with
    | none => none
    | some (.error e) => some (.error e)
    | some (.ok _) => some (.ok (output_file input_file))

/-- The writes that have hit the disk after `n` observed iterations: none
if decoding failed (the failure precedes any save), none if the output
path is not writable (the first save raises), otherwise one per
iteration, all at the same path. -/
def writesAfter (input_file : String) (decoded : Option (ℕ × ℕ))
    (writable : Bool) (min_size_percentage : ℚ)
    (info0 : List (String × MetaVal)) (n : ℕ) : List SaveOp :=
  match decoded with
  | none => []
  | some (w, h) =>
    if writable then
      (List.range n).map (iterSave input_file w h min_size_percentage info0)
    else []

lemma scale_factor_pos (k : ℕ) : 0 < scale_factor k := by
  induction k with
  | zero => norm_num [scale_factor]
  | succ k ih => rw [scale_factor]; positivity

lemma scale_factor_pow (k : ℕ) : scale_factor k = 0.9 * 0.95 ^ k := by
  induction k with
  | zero => norm_num [scale_factor]
  | succ k ih => rw [scale_factor, ih, pow_succ]; ring

lemma scale_factor_succ_le (k : ℕ) : scale_factor (k + 1) ≤ scale_factor k := by
  rw [scale_factor]
  nlinarith [scale_factor_pos k]

/-- Bernoulli-type bound: the geometric decay `0.95 ^ k` is below the
harmonic envelope `19 / (19 + k)`. -/
lemma pow_scale_le (k : ℕ) : (0.95 : ℚ) ^ k ≤ 19 / (19 + k) := by
  have h1 : (1 : ℚ) + k * (1/19) ≤ (1 + 1/19) ^ k :=
    one_add_mul_le_pow (by norm_num) k
  have hpos : (0 : ℚ) < 1 + k * (1/19) := by positivity
  have h2 : ((1 + 1/19 : ℚ) ^ k)⁻¹ ≤ (1 + (k : ℚ) * (1/19))⁻¹ :=
    inv_anti₀ hpos h1
  have h3 : ((1 + 1/19 : ℚ) ^ k)⁻¹ = (0.95 : ℚ) ^ k := by
    rw [← inv_pow]; norm_num
  have h4 : ((1 : ℚ) + k * (1/19))⁻¹ = 19 / (19 + k) := by
    rw [inv_eq_one_div, div_eq_div_iff (ne_of_gt hpos) (by positivity)]
    ring
  rw [h3, h4] at h2
  exact h2

/-- After `18 * w` failing iterations the scaled width drops below one
pixel. -/
lemma mul_scale_factor_lt_one (w : ℕ) {k : ℕ} (hk : 18 * w ≤ k) :
    (w : ℚ) * scale_factor k < 1 := by
  have hw : (0 : ℚ) ≤ w := Nat.cast_nonneg w
  have hb : (0.95 : ℚ) ^ k ≤ 19 / (19 + k) := pow_scale_le k
  have h1 : (w : ℚ) * scale_factor k ≤ (w : ℚ) * (0.9 * (19 / (19 + k))) := by
    rw [scale_factor_pow]
    refine mul_le_mul_of_nonneg_left ?_ hw
    refine mul_le_mul_of_nonneg_left hb (by norm_num)
  have hpos : (0 : ℚ) < 19 + k := by positivity
  have hrw : (w : ℚ) * (0.9 * (19 / (19 + k))) = (w : ℚ) * 0.9 * 19 / (19 + k) := by
    ring
  have hk' : (18 : ℚ) * w ≤ k := by exact_mod_cast hk
  have h2 : (w : ℚ) * (0.9 * (19 / (19 + k))) < 1 := by
    rw [hrw, div_lt_one hpos]
    nlinarith
  exact lt_of_le_of_lt h1 h2

lemma min_width_nonneg (w : ℕ) {p : ℚ} (hp : 0 ≤ p) : 0 ≤ min_width w p := by
  unfold min_width
  have h : (0 : ℚ) ≤ (w : ℚ) * p := mul_nonneg (Nat.cast_nonneg w) hp
  rw [pyInt_of_nonneg h]
  exact Int.floor_nonneg.mpr h

/-- `min_height` is `min_width` applied to the height. -/
lemma min_height_eq (h : ℕ) (p : ℚ) : min_height h p = min_width h p := rfl

/-- `new_height` is `new_width` applied to the height. -/
lemma new_height_eq (h : ℕ) (p : ℚ) (k : ℕ) :
    new_height h p k = new_width h p k := rfl

/-- Once `18 * w` iterations have failed, the clamp is active: the
candidate width is exactly the floor width. -/
lemma new_width_at_floor (w : ℕ) {p : ℚ} (hp : 0 ≤ p) {k : ℕ}
    (hk : 18 * w ≤ k) : new_width w p k = min_width w p := by
  unfold new_width currentWidth
  refine max_eq_right ?_
  have h0 : (0 : ℚ) ≤ (w : ℚ) * scale_factor k :=
    mul_nonneg (Nat.cast_nonneg w) (le_of_lt (scale_factor_pos k))
  rw [pyInt_of_nonneg h0]
  have hlt : ⌊(w : ℚ) * scale_factor k⌋ < 1 :=
    Int.floor_lt.mpr (by exact_mod_cast mul_scale_factor_lt_one w hk)
  have := min_width_nonneg w hp
  omega

/-- The candidate width never drops below the floor width. -/
lemma min_width_le_new_width (w : ℕ) (p : ℚ) (k : ℕ) :
    min_width w p ≤ new_width w p k := le_max_right _ _

/-- Monotonicity: truncation is monotone on nonnegative rationals. -/
lemma pyInt_mono {x y : ℚ} (hx : 0 ≤ x) (hxy : x ≤ y) :
    pyInt x ≤ pyInt y := by
  rw [pyInt_of_nonneg hx, pyInt_of_nonneg (le_trans hx hxy)]
  exact Int.floor_le_floor hxy

lemma new_width_succ_le (w : ℕ) (p : ℚ) (k : ℕ) :
    new_width w p (k + 1) ≤ new_width w p k := by
  unfold new_width currentWidth
  refine max_le_max ?_ le_rfl
  refine pyInt_mono ?_ ?_
  · exact mul_nonneg (Nat.cast_nonneg w) (le_of_lt (scale_factor_pos (k + 1)))
  · exact mul_le_mul_of_nonneg_left (scale_factor_succ_le k) (Nat.cast_nonneg w)

/-- If the observed loop returned normally at iteration `n`, then the file
written at iteration `n` passed the size check. -/
lemma loopFrom_ok_size {w h : ℕ} {p t : ℚ} {f : ℤ → ℤ → ℚ} {wr : Bool} :
    ∀ {fuel k n : ℕ}, loopFrom w h p t f wr k fuel = some (.ok n) →
      output_size_kb f w h p n ≤ t := by
  intro fuel
  induction fuel with
  | zero => intro k n hc; simp [loopFrom] at hc
  | succ fuel ih =>
    intro k n hc
    rw [loopFrom] at hc
    cases wr with
    | false => simp at hc
    | true =>
      rw [if_pos rfl] at hc
      by_cases hle : output_size_kb f w h p k ≤ t
      · rw [if_pos hle] at hc
        obtain rfl : k = n := by simpa using hc
        exact hle
      · rw [if_neg hle] at hc
        exact ih hc

/-- If some iteration `k + d` passes the size check, the loop observed
with `d + 1` units of fuel from `k` returns normally. -/
lemma loopFrom_reaches {w h : ℕ} {p t : ℚ} {f : ℤ → ℤ → ℚ} :
    ∀ (d k : ℕ), output_size_kb f w h p (k + d) ≤ t →
      ∃ n, loopFrom w h p t f true k (d + 1) = some (.ok n) := by
  intro d
  induction d with
  | zero =>
    intro k hk
    refine ⟨k, ?_⟩
    rw [loopFrom, if_pos rfl, if_pos (by simpa using hk)]
  | succ d ih =>
    intro k hk
    by_cases hle : output_size_kb f w h p k ≤ t
    · exact ⟨k, by rw [loopFrom, if_pos rfl, if_pos hle]⟩
    · obtain ⟨n, hn⟩ := ih (k + 1) (by
        have : k + 1 + d = k + (d + 1) := by omega
        rw [this]; exact hk)
      refine ⟨n, ?_⟩
      rw [loopFrom, if_pos rfl, if_neg hle]
      exact hn

/-- If every iteration fails the size check, no amount of observed fuel
sees the loop return. -/
lemma loopFrom_none_of_gt {w h : ℕ} {p t : ℚ} {f : ℤ → ℤ → ℚ}
    (hall : ∀ j, t < output_size_kb f w h p j) :
    ∀ (fuel k : ℕ), loopFrom w h p t f true k fuel = none := by
  intro fuel
  induction fuel with
  | zero => intro k; rw [loopFrom]
  | succ fuel ih =>
    intro k
    rw [loopFrom, if_pos rfl, if_neg (not_le.mpr (hall k))]
    exact ih (k + 1)

/-- The image handed to `save` is the resized image with an empty
metadata dictionary. -/
lemma imgSaved_eq (w h : ℕ) (p : ℚ) (info0 : List (String × MetaVal)) (k : ℕ) :
    imgSaved w h p info0 k = ⟨new_width w p k, new_height h p k, []⟩ := rfl

/-- Claim C6: the scale factor starts at 0.9, is multiplied by 0.95 after
each failing iteration (iteration `k+1` exists only after iteration `k`
failed the size check), is monotonically non-increasing across
iterations, and its first values are 0.9, 0.855, 0.81225. -/
theorem C6_scale_factor_sequence :
    scale_factor 0 = 0.9 ∧
    (∀ k, scale_factor (k + 1) = scale_factor k * 0.95) ∧
    (∀ k, scale_factor (k + 1) ≤ scale_factor k) ∧
    scale_factor 1 = 0.855 ∧ scale_factor 2 = 0.81225 :=
  ⟨rfl, fun _ => rfl, scale_factor_succ_le,
    by norm_num [scale_factor], by norm_num [scale_factor]⟩

/-- Claim C9: the candidate dimensions are componentwise monotonically
non-increasing across iterations: iteration `k+1`'s width
`max(int(original_width * scale_factor), min_width)` is at most
iteration `k`'s, and likewise for the height. -/
theorem C9_candidate_dims_antitone (w h : ℕ) (p : ℚ) (k : ℕ) :
    new_width w p (k + 1) ≤ new_width w p k ∧
    new_height h p (k + 1) ≤ new_height h p k :=
  ⟨new_width_succ_le w p k, by
    rw [new_height_eq, new_height_eq]; exact new_width_succ_le h p k⟩

/-- Claim C5: in every iteration the dpi hint (300,300) is set in the
metadata map and the whole map is then cleared before saving, so at save
time the map is empty and the dpi hint is gone — the set-then-clear pair
is self-canceling. -/
theorem C5_metadata_set_then_cleared (input : String) (w h : ℕ) (p : ℚ)
    (info0 : List (String × MetaVal)) (k : ℕ) :
    (imgAfterDpi w h p info0 k).info.lookup "dpi" = some (MetaVal.pair 300 300) ∧
    (imgSaved w h p info0 k).info = [] ∧
    (imgSaved w h p info0 k).info.lookup "dpi" = none ∧
    (iterSave input w h p info0 k).image.info = [] :=
  ⟨rfl, rfl, rfl, rfl⟩

/-- Claim C8: an invalid image yields a decode error raised before any
save (no file is written), an unwritable output path yields a filesystem
error raised from the first save, and both propagate out of
`compress_tiff_file` unhandled. -/
theorem C8_errors_propagate (input : String) (w h : ℕ) (p target : ℚ)
    (f : ℤ → ℤ → ℚ) (wr : Bool) (info0 : List (String × MetaVal)) (fuel : ℕ) :
    compress_tiff_file input none wr f target p fuel =
      some (.error .decodeError) ∧
    writesAfter input none wr p info0 fuel = [] ∧
    compress_tiff_file input (some (w, h)) false f target p (fuel + 1) =
      some (.error .writeError) ∧
    writesAfter input (some (w, h)) false p info0 fuel = [] := by
  refine ⟨rfl, rfl, ?_, rfl⟩
  simp [compress_tiff_file, loopFrom]

/-- Claim C10: with `min_size_percentage = 0` the floor dimensions are 0,
and after enough failing iterations the computed candidate dimensions
reach 0: no lower bound of one pixel is enforced on the arguments passed
to `resize`. -/
theorem C10_dims_can_reach_zero (w h : ℕ) :
    min_width w 0 = 0 ∧ min_height h 0 = 0 ∧
    ∃ k, new_width w 0 k = 0 ∧ new_height h 0 k = 0 := by
  have hmw : ∀ n : ℕ, min_width n 0 = 0 := by
    intro n
    unfold min_width
    rw [mul_zero, pyInt_of_nonneg le_rfl, Int.floor_zero]
  refine ⟨hmw w, hmw h, max (18 * w) (18 * h), ?_, ?_⟩
  · rw [new_width_at_floor w le_rfl (le_max_left _ _), hmw w]
  · rw [new_height_eq, new_width_at_floor h le_rfl (le_max_right _ _), hmw h]

/-- Claim C2 counterexample: at iteration 1 (scale factor 0.855) with an
original width of 10 and `min_size_percentage = 0`, the code computes
`max(int(10 * 0.855), 0) = 8`, while the claimed formula
`max(round(10 * 0.855), 0)` gives 9: the code truncates, it does not
round. -/
theorem C2_counterexample :
    new_width 10 0 1 = 8 ∧
    max (pyRound ((currentWidth 10 1 : ℚ) * scale_factor 1)) (min_width 10 0) = 9 ∧
    new_width 10 0 1 ≠
      max (pyRound ((currentWidth 10 1 : ℚ) * scale_factor 1)) (min_width 10 0) := by
  have hx : ((currentWidth 10 1 : ℕ) : ℚ) * scale_factor 1 = 171/20 := by
    norm_num [currentWidth, scale_factor]
  have hfl : ⌊(171/20 : ℚ)⌋ = 8 := Int.floor_eq_iff.mpr (by norm_num)
  have hmw : min_width 10 0 = 0 := by
    unfold min_width
    rw [mul_zero, pyInt_of_nonneg le_rfl, Int.floor_zero]
  have hInt : pyInt ((171:ℚ)/20) = 8 := by
    rw [pyInt_of_nonneg (by norm_num), hfl]
  have hRnd : pyRound ((171:ℚ)/20) = 9 := by
    unfold pyRound
    rw [hfl]
    norm_num
  have h1 : new_width 10 0 1 = 8 := by
    unfold new_width
    rw [hx, hInt, hmw]
    rfl
  have h2 : max (pyRound ((currentWidth 10 1 : ℚ) * scale_factor 1))
      (min_width 10 0) = 9 := by
    rw [hx, hRnd, hmw]
    rfl
  exact ⟨h1, h2, by rw [h1, h2]; decide⟩

/-- Claim C2 amended: in every iteration the candidate width is
`max(int(current_width * scale_factor), min_width)` — Python `int()`
truncation, which on these nonnegative values is the floor, not
`round()` — and the current (pre-resize) width equals the original width
because the source file is freshly re-opened each iteration; analogously
for the height. -/
theorem C2_candidate_formula (w h : ℕ) (p : ℚ) (k : ℕ) :
    currentWidth w k = w ∧ currentHeight h k = h ∧
    new_width w p k = max (pyInt ((w : ℚ) * scale_factor k)) (min_width w p) ∧
    new_height h p k = max (pyInt ((h : ℚ) * scale_factor k)) (min_height h p) ∧
    pyInt ((w : ℚ) * scale_factor k) = ⌊(w : ℚ) * scale_factor k⌋ ∧
    pyInt ((h : ℚ) * scale_factor k) = ⌊(h : ℚ) * scale_factor k⌋ :=
  ⟨rfl, rfl, rfl, rfl,
    pyInt_of_nonneg
      (mul_nonneg (Nat.cast_nonneg w) (le_of_lt (scale_factor_pos k))),
    pyInt_of_nonneg
      (mul_nonneg (Nat.cast_nonneg h) (le_of_lt (scale_factor_pos k)))⟩

/-- Claim C3 counterexample: with a 10×10 original, `min_size_percentage
= 0.95` and iteration 0 (scale factor 0.9), the saved image is 9×9, which
is strictly below `min_size_percentage * original_dim = 9.5` in both
components: the guaranteed lower bound is the truncated
`int(original_dim * min_size_percentage)`, not the exact product. -/
theorem C3_counterexample :
    ((iterSave "a.tif" 10 10 (19/20) [] 0).image.width : ℚ) < 10 * (19/20) ∧
    ((iterSave "a.tif" 10 10 (19/20) [] 0).image.height : ℚ) < 10 * (19/20) := by
  have h9 : pyInt ((9:ℚ)) = 9 := pyInt_eq_of (by norm_num) (by norm_num) (by norm_num)
  have h95 : pyInt ((19:ℚ)/2) = 9 := pyInt_eq_of (by norm_num) (by norm_num) (by norm_num)
  have hnw : new_width 10 (19/20) 0 = 9 := by
    unfold new_width min_width currentWidth
    have hx : ((10:ℕ) : ℚ) * scale_factor 0 = 9 := by norm_num [scale_factor]
    have hy : ((10:ℕ) : ℚ) * (19/20) = 19/2 := by norm_num
    rw [hx, hy, h9, h95]
    decide
  have hw : (iterSave "a.tif" 10 10 (19/20) [] 0).image.width = 9 := hnw
  have hh : (iterSave "a.tif" 10 10 (19/20) [] 0).image.height = 9 := hnw
  rw [hw, hh]
  norm_num

/-- Claim C3 amended: in every iteration, including the final one, the
saved image's dimensions are componentwise at least the floor dimensions
`(int(min_size_percentage * original_width),
int(min_size_percentage * original_height))` computed by the code. -/
theorem C3_dims_at_least_floor (input : String) (w h : ℕ) (p : ℚ)
    (info0 : List (String × MetaVal)) (k : ℕ) :
    min_width w p ≤ (iterSave input w h p info0 k).image.width ∧
    min_height h p ≤ (iterSave input w h p info0 k).image.height :=
  ⟨le_max_right _ _, le_max_right _ _⟩

/-- Claim C1: for every decodable input and every target at least the
size achievable at the floor dimensions, the loop terminates (some
iteration passes the size check), the file written by the final
iteration is within the target, and the function returns the output
path. -/
theorem C1_terminates_under_target (input : String) (w h : ℕ)
    (p target : ℚ) (f : ℤ → ℤ → ℚ) (hp : 0 ≤ p)
    (hfit : f (min_width w p) (min_height h p) ≤ target) :
    ∃ fuel n, loopFrom w h p target f true 0 fuel = some (.ok n) ∧
      output_size_kb f w h p n ≤ target ∧
      compress_tiff_file input (some (w, h)) true f target p fuel =
        some (.ok (output_file input)) := by
  have hsize : output_size_kb f w h p (max (18 * w) (18 * h)) ≤ target := by
    unfold output_size_kb
    rw [new_width_at_floor w hp (le_max_left _ _), new_height_eq,
      new_width_at_floor h hp (le_max_right _ _), ← min_height_eq h p]
    exact hfit
  obtain ⟨n, hn⟩ := loopFrom_reaches (max (18 * w) (18 * h)) 0
    (by simpa using hsize)
  refine ⟨max (18 * w) (18 * h) + 1, n, hn, loopFrom_ok_size hn, ?_⟩
  simp [compress_tiff_file, hn]

theorem C1_witness :
    ((0:ℚ) ≤ 3/10) ∧
    ((fun _ _ => (0:ℚ)) (min_width 1000 (3/10)) (min_height 1000 (3/10)) ≤ 10) ∧
    (∃ fuel n,
      loopFrom 1000 1000 (3/10) 10 (fun _ _ => (0:ℚ)) true 0 fuel =
        some (.ok n) ∧
      output_size_kb (fun _ _ => (0:ℚ)) 1000 1000 (3/10) n ≤ 10 ∧
      compress_tiff_file "a.tif" (some (1000, 1000)) true (fun _ _ => (0:ℚ))
        10 (3/10) fuel = some (.ok (output_file "a.tif"))) :=
  ⟨by norm_num, by norm_num,
    C1_terminates_under_target "a.tif" 1000 1000 (3/10) 10 (fun _ _ => (0:ℚ))
      (by norm_num) (by norm_num)⟩

/-- Claim C4: if the file produced at the floor dimensions is still
larger than the target (under a size model that is monotone in the
dimensions), then no iteration ever passes the size check — after any
number of observed iterations the loop has not returned — and from some
point on every iteration recomputes the same clamped-floor image. -/
theorem C4_never_terminates (input : String) (w h : ℕ) (p target : ℚ)
    (f : ℤ → ℤ → ℚ) (info0 : List (String × MetaVal)) (hp : 0 ≤ p)
    (hmono : ∀ a b a' b' : ℤ, a ≤ a' → b ≤ b' → f a b ≤ f a' b')
    (hbig : target < f (min_width w p) (min_height h p)) :
    (∀ fuel, loopFrom w h p target f true 0 fuel = none) ∧
    (∀ fuel, compress_tiff_file input (some (w, h)) true f target p fuel = none) ∧
    ∃ K, ∀ k, K ≤ k →
      imgSaved w h p info0 k = imgSaved w h p info0 K := by
  have hall : ∀ j, target < output_size_kb f w h p j := by
    intro j
    refine lt_of_lt_of_le hbig ?_
    unfold output_size_kb
    have hh : min_height h p ≤ new_height h p j := by
      rw [min_height_eq, new_height_eq]
      exact min_width_le_new_width h p j
    exact hmono _ _ _ _ (min_width_le_new_width w p j) hh
  have hnone := loopFrom_none_of_gt hall
  refine ⟨fun fuel => hnone fuel 0, fun fuel => ?_, ?_⟩
  · simp [compress_tiff_file, hnone fuel 0]
  · refine ⟨max (18 * w) (18 * h), fun k hk => ?_⟩
    rw [imgSaved_eq, imgSaved_eq,
      new_width_at_floor w hp (le_trans (le_max_left _ _) hk),
      new_width_at_floor w hp (le_max_left _ _),
      new_height_eq, new_height_eq,
      new_width_at_floor h hp (le_trans (le_max_right _ _) hk),
      new_width_at_floor h hp (le_max_right _ _)]

theorem C4_witness :
    ((0:ℚ) ≤ 3/10) ∧
    (∀ a b a' b' : ℤ, a ≤ a' → b ≤ b' →
      ((a + b : ℤ) : ℚ) ≤ ((a' + b' : ℤ) : ℚ)) ∧
    ((1:ℚ) < ((min_width 1000 (3/10) + min_height 1000 (3/10) : ℤ) : ℚ)) ∧
    ((∀ fuel, loopFrom 1000 1000 (3/10) 1
        (fun a b => ((a + b : ℤ) : ℚ)) true 0 fuel = none) ∧
     (∀ fuel, compress_tiff_file "a.tif" (some (1000, 1000)) true
        (fun a b => ((a + b : ℤ) : ℚ)) 1 (3/10) fuel = none) ∧
     ∃ K, ∀ k, K ≤ k →
        imgSaved 1000 1000 (3/10) [] k = imgSaved 1000 1000 (3/10) [] K) := by
  have h300 : min_width 1000 (3/10) = 300 := by
    unfold min_width
    have hx : ((1000:ℕ):ℚ) * (3/10) = 300 := by norm_num
    rw [hx]
    exact pyInt_eq_of (by norm_num) (by norm_num) (by norm_num)
  have hmono : ∀ a b a' b' : ℤ, a ≤ a' → b ≤ b' →
      ((a + b : ℤ) : ℚ) ≤ ((a' + b' : ℤ) : ℚ) :=
    fun a b a' b' ha hb => by exact_mod_cast add_le_add ha hb
  have hbig : (1:ℚ) < ((min_width 1000 (3/10) + min_height 1000 (3/10) : ℤ) : ℚ) := by
    rw [min_height_eq, h300]
    norm_num
  exact ⟨by norm_num, hmono, hbig,
    C4_never_terminates "a.tif" 1000 1000 (3/10) 1
      (fun a b => ((a + b : ℤ) : ℚ)) [] (by norm_num) hmono hbig⟩

/-- Claim C7: every iteration writes a TIFF file at the fixed path
`compressed_<basename(input_file)>` (the same path each time, so later
iterations overwrite earlier ones), and a normal return yields exactly
that path. -/
theorem C7_fixed_output_path (input : String) (w h : ℕ) (p target : ℚ)
    (f : ℤ → ℤ → ℚ) (info0 : List (String × MetaVal)) (fuel : ℕ) (r : String)
    (hret : compress_tiff_file input (some (w, h)) true f target p fuel =
      some (.ok r)) :
    r = output_file input ∧
    output_file input = "compressed_" ++ basename input ∧
    (∀ k, (iterSave input w h p info0 k).path = output_file input) ∧
    (∀ k, (iterSave input w h p info0 k).format = "TIFF") ∧
    (∀ k, (iterSave input w h p info0 k).compression = "tiff_lzw") := by
  refine ⟨?_, rfl, fun k => rfl, fun k => rfl, fun k => rfl⟩
  cases hl : loopFrom w h p target f true 0 fuel with
  | none => simp [compress_tiff_file, hl] at hret
  | some res =>
    cases res with
    | error e => simp [compress_tiff_file, hl] at hret
    | ok n =>
      simp [compress_tiff_file, hl] at hret
      exact hret.symm

theorem C7_witness :
    (compress_tiff_file "d/a.tif" (some (10, 10)) true (fun _ _ => (0:ℚ))
      1 (3/10) 1 = some (.ok "compressed_a.tif")) ∧
    ("compressed_a.tif" = output_file "d/a.tif" ∧
      output_file "d/a.tif" = "compressed_" ++ basename "d/a.tif" ∧
      (∀ k, (iterSave "d/a.tif" 10 10 (3/10) [] k).path = output_file "d/a.tif") ∧
      (∀ k, (iterSave "d/a.tif" 10 10 (3/10) [] k).format = "TIFF") ∧
      (∀ k, (iterSave "d/a.tif" 10 10 (3/10) [] k).compression = "tiff_lzw")) := by
  have hret : compress_tiff_file "d/a.tif" (some (10, 10)) true
      (fun _ _ => (0:ℚ)) 1 (3/10) 1 = some (.ok "compressed_a.tif") := by
    rfl
  exact ⟨hret, C7_fixed_output_path "d/a.tif" 10 10 (3/10) 1
    (fun _ _ => (0:ℚ)) [] 1 "compressed_a.tif" hret⟩
